import Mathlib

/-!
Shallow embedding of the `gor` HTTP router's form/query decoder
(`src/gor/form.go`) and of its middleware chain composer and pooled
request context (`src/gor/group.go`).

Go machine integers are modelled as `Int`/`Nat` with explicit
two's-complement truncation (`% 2^w`).  Go's `strconv` parsers are
modelled as `Option`-returning functions, a Go `panic` inside
`setField` (a failed type assertion) as a distinct error constructor,
and the `map[string]interface{}` value map as an association list
holding either a single string or a list of strings.
-/

/-- ASCII whitespace recognised by Go's `strings.TrimSpace` on the
inputs modelled here (the Unicode cases do not arise for form data). -/
def isSpaceChar (c : Char) : Bool :=
  c = ' ' || c = '\t' || c = '\n' || c = '\r' || c = '\x0b' || c = '\x0c'

/-- Model of Go `strings.TrimSpace`: drop whitespace from both ends. -/
def goTrim (s : String) : String :=
  ⟨((s.data.dropWhile isSpaceChar).reverse.dropWhile isSpaceChar).reverse⟩

/-- Helper for `splitComma`: accumulates the current segment (reversed). -/
def splitCommaAux : List Char → List Char → List String
  | [], acc => [⟨acc.reverse⟩]
  | c :: cs, acc =>
      if c = ',' then ⟨acc.reverse⟩ :: splitCommaAux cs []
      else splitCommaAux cs (c :: acc)

/-- Model of Go `strings.Split(s, ",")`: split on commas; the empty
string yields `[""]`, matching Go. -/
def splitComma (s : String) : List String :=
  splitCommaAux s.data []

/-- Lower-case an ASCII letter, as `strings.ToLower` does on the
identifier characters that reach `SnakeCase`. -/
def lowerChar (c : Char) : Char :=
  if 'A' ≤ c ∧ c ≤ 'Z' then Char.ofNat (c.toNat + 32) else c

/-- Helper for `SnakeCase`: the Go loop writes `'_'` before every
uppercase letter whose index is positive, then the rune itself. -/
def snakeAux : Nat → List Char → List Char
  | _, [] => []
  | i, c :: cs =>
      (if 0 < i ∧ 'A' ≤ c ∧ c ≤ 'Z' then ['_', c] else [c]) ++ snakeAux (i + 1) cs

/-- Model of `SnakeCase` in `form.go`: underscore before each uppercase
letter past the first character, then lower-case the whole string. -/
def SnakeCase (s : String) : String :=
  ⟨(snakeAux 0 s.data).map lowerChar⟩

/-- Value of a decimal digit, `none` for any other character. -/
def digitVal (c : Char) : Option Nat :=
  if '0' ≤ c ∧ c ≤ '9' then some (c.toNat - '0'.toNat) else none

/-- Accumulating decimal reader; fails on any non-digit. -/
def digitsValAux : List Char → Nat → Option Nat
  | [], acc => some acc
  | c :: cs, acc =>
      match digitVal c with
      | some d => digitsValAux cs (acc * 10 + d)
      | none => none

/-- A non-empty all-digit string read in base 10. -/
def digitsVal (l : List Char) : Option Nat :=
  match l with
  | [] => none
  | _ => digitsValAux l 0

/-- Model of Go `strconv.ParseInt(s, 10, 64)`: optional sign, base-10
digits, range `[-2^63, 2^63 - 1]`; any syntax or range failure is
`none` (Go returns a non-nil error in both cases). -/
def goParseInt64 (s : String) : Option Int :=
  match s.data with
  | [] => none
  | c :: cs =>
      let neg := c = '-'
      let ds := if c = '-' ∨ c = '+' then cs else c :: cs
      match digitsVal ds with
      | none => none
      | some n =>
          if neg then
            if n ≤ 2 ^ 63 then some (-(n : Int)) else none
          else
            if n ≤ 2 ^ 63 - 1 then some (n : Int) else none

/-- Model of Go `strconv.ParseUint(s, 10, 64)`: no sign permitted,
base-10 digits, range `[0, 2^64 - 1]`. -/
def goParseUint64 (s : String) : Option Nat :=
  match digitsVal s.data with
  | none => none
  | some n => if n ≤ 2 ^ 64 - 1 then some n else none

/-- Model of Go `strconv.ParseBool`: the exact canonical token set. -/
def goParseBool (s : String) : Option Bool :=
  if s = "1" ∨ s = "t" ∨ s = "T" ∨ s = "true" ∨ s = "TRUE" ∨ s = "True" then
    some true
  else if s = "0" ∨ s = "f" ∨ s = "F" ∨ s = "false" ∨ s = "FALSE" ∨ s = "False" then
    some false
  else
    none

/-- Boolean coercion as written in `setField`/`handleSlice`:
`strconv.ParseBool`, and on failure the HTML checkbox aliases
`"on"`/`"off"`. -/
def parseBoolToken (s : String) : Option Bool :=
  match goParseBool s with
  | some b => some b
  | none => if s = "on" then some true else if s = "off" then some false else none

/-- `reflect.Value.SetInt` applied to a signed field of width `w`
converts through `intN(x)`: two's-complement truncation, no error. -/
def truncInt (w : Nat) (n : Int) : Int :=
  let m := n % ((2 : Int) ^ w)
  if m < (2 : Int) ^ (w - 1) then m else m - (2 : Int) ^ w

/-- `reflect.Value.SetUint` applied to an unsigned field of width `w`
converts through `uintN(x)`: reduction mod `2^w`, no error. -/
def truncUint (w : Nat) (n : Nat) : Nat :=
  n % 2 ^ w

/-- Element kind of a slice-typed destination field (`form.go` covers
string, signed/unsigned integer and boolean elements via `handleSlice`;
the temporal and FormScanner element paths are outside the claims'
scope). Widths are the declared bit widths of the Go element type. -/
inductive ElemType where
  | eStr : ElemType
  | eInt (w : Nat) : ElemType
  | eUint (w : Nat) : ElemType
  | eBool : ElemType
deriving DecidableEq, Repr

/-- Kind of a destination struct field handled by `setField`. -/
inductive FType where
  | tStr : FType
  | tInt (w : Nat) : FType
  | tUint (w : Nat) : FType
  | tBool : FType
  | tSlice (e : ElemType) : FType
deriving DecidableEq, Repr

/-- A Go value stored in a destination field of one of the modelled
kinds.  Signed integers carry the post-truncation `Int`, unsigned the
post-truncation `Nat`. -/
inductive GoValue where
  | str (s : String) : GoValue
  | int (n : Int) : GoValue
  | uint (n : Nat) : GoValue
  | bool (b : Bool) : GoValue
  | sliceStr (l : List String) : GoValue
  | sliceInt (l : List Int) : GoValue
  | sliceUint (l : List Nat) : GoValue
  | sliceBool (l : List Bool) : GoValue
deriving DecidableEq, Repr

/-- One entry of the `map[string]interface{}` built by `BodyParser` /
`QueryParser`: either a single string or a `[]string`. -/
inductive FormValue where
  | single (s : String) : FormValue
  | multi (l : List String) : FormValue
deriving DecidableEq, Repr

/-- A destination struct field: Go identifier plus its struct-tag
entries (`reflect.StructTag.Get` returns `""` for an absent tag, which
the association-list lookup below reproduces) and its kind. -/
structure StructField where
  name : String
  tags : List (String × String)
  ftype : FType
deriving DecidableEq, Repr

/-- Model of `field.Tag.Get(n)`: the tag value under name `n`, or `""`
when the tag is absent. -/
def tagGet (f : StructField) (n : String) : String :=
  (f.tags.lookup n).getD ""

/-- The raw tag string `parseFormData` settles on for a field: the
caller-preferred tag name first, then the `"json"` tag, then
`SnakeCase` of the field identifier. -/
def resolveRawTag (f : StructField) (tagName : String) : String :=
  let t := tagGet f tagName
  if t = "" then
    let j := tagGet f "json"
    if j = "" then SnakeCase f.name else j
  else t

/-- The comma-separated, whitespace-trimmed components of the resolved
tag (`tagList` in `parseFormData`). -/
def tagComponents (f : StructField) (tagName : String) : List String :=
  (splitComma (resolveRawTag f tagName)).map goTrim

/-- The external key used for the map lookup: the first component of
`tagList`. -/
def fieldKey (f : StructField) (tagName : String) : String :=
  (tagComponents f tagName).headD ""

/-- `required := slices.Contains(tagList, "required") ||
field.Tag.Get("required") == "true"`. -/
def isRequired (f : StructField) (tagName : String) : Bool :=
  (tagComponents f tagName).contains "required" || tagGet f "required" = "true"

/-- Outcome of `setField`: either a parse/unsupported-type failure
(wrapped by `parseFormData` as `ParseError`) or a Go panic (a failed
`value.(string)` type assertion), which propagates unwrapped. -/
inductive SetErr where
  | failure : SetErr
  | panicked : SetErr
deriving DecidableEq, Repr

/-- The `FormErrorKind` constants of `form.go`. -/
inductive FormErrorKind where
  | invalidContentType : FormErrorKind
  | invalidStructPointer : FormErrorKind
  | requiredFieldMissing : FormErrorKind
  | unsupportedType : FormErrorKind
  | parseError : FormErrorKind
deriving DecidableEq, Repr

/-- Overall outcome of a decode: a returned `FormError` of some kind,
or a propagated panic. -/
inductive Outcome where
  | err (k : FormErrorKind) : Outcome
  | panicked : Outcome
deriving DecidableEq, Repr

/-- The `value.(string)` type assertion of `setField`: succeeds on a
single string, panics on a `[]string`. -/
def asString (v : FormValue) : Option String :=
  match v with
  | .single s => some s
  | .multi _ => none

/-- Element-wise signed-integer decoding of `handleSlice`
(`strconv.ParseInt(v, 10, 64)` then `SetInt` truncation); fails on the
first bad element. -/
def mapParseInt (w : Nat) : List String → Option (List Int)
  | [] => some []
  | s :: rest =>
      match goParseInt64 s with
      | none => none
      | some n => (mapParseInt w rest).map (truncInt w n :: ·)

/-- Element-wise unsigned-integer decoding of `handleSlice`. -/
def mapParseUint (w : Nat) : List String → Option (List Nat)
  | [] => some []
  | s :: rest =>
      match goParseUint64 s with
      | none => none
      | some n => (mapParseUint w rest).map (truncUint w n :: ·)

/-- Element-wise boolean decoding of `handleSlice` (with the same
on/off fallback as the scalar case). -/
def mapParseBool : List String → Option (List Bool)
  | [] => some []
  | s :: rest =>
      match parseBoolToken s with
      | none => none
      | some b => (mapParseBool rest).map (b :: ·)

/-- Model of `handleSlice`: a `[]string` source is used as is, a single
string is split on commas with each segment trimmed; an empty element
list is a no-op (the field keeps its previous value); otherwise every
element is coerced independently and the whole slice replaces the
field, failing on the first bad element without touching the field. -/
def handleSlice (e : ElemType) (old : GoValue) (v : FormValue) :
    Except SetErr GoValue :=
  let valueSlice :=
    match v with
    | .multi l => l
    | .single s => (splitComma s).map goTrim
  if valueSlice.isEmpty then .ok old
  else
    match e with
    | .eStr => .ok (.sliceStr valueSlice)
    | .eInt w =>
        match mapParseInt w valueSlice with
        | some l => .ok (.sliceInt l)
        | none => .error .failure
    | .eUint w =>
        match mapParseUint w valueSlice with
        | some l => .ok (.sliceUint l)
        | none => .error .failure
    | .eBool =>
        match mapParseBool valueSlice with
        | some l => .ok (.sliceBool l)
        | none => .error .failure

/-- Model of `setField` on the modelled field kinds.  Scalar kinds
assert `value.(string)` (panicking on a `[]string`), parse at bit size
64 and store with `SetInt`/`SetUint` truncation to the declared width;
booleans use `strconv.ParseBool` with the on/off fallback; slices
delegate to `handleSlice`.  On failure the field keeps `old`. -/
def setField (t : FType) (old : GoValue) (v : FormValue) :
    Except SetErr GoValue :=
  match t with
  | .tStr =>
      match asString v with
      | some s => .ok (.str s)
      | none => .error .panicked
  | .tInt w =>
      match asString v with
      | none => .error .panicked
      | some s =>
          match goParseInt64 s with
          | some n => .ok (.int (truncInt w n))
          | none => .error .failure
  | .tUint w =>
      match asString v with
      | none => .error .panicked
      | some s =>
          match goParseUint64 s with
          | some n => .ok (.uint (truncUint w n))
          | none => .error .failure
  | .tBool =>
      match asString v with
      | none => .error .panicked
      | some s =>
          match parseBoolToken s with
          | some b => .ok (.bool b)
          | none => .error .failure
  | .tSlice e => handleSlice e old v

/-- Map lookup on the flat value mapping (keys are unique per decode,
as they come from a Go map). -/
def lookupData (data : List (String × FormValue)) (k : String) :
    Option FormValue :=
  data.lookup k

/-- Model of the field loop of `parseFormData`: walks the fields in
declaration order carrying each field's current value, resolves the
external key, and either skips (absent + optional), fails fast with
`RequiredFieldMissing` (absent + required), assigns the coerced value,
or fails fast wrapping any `setField` failure as `ParseError`.  The
returned list is the destination's field values when the function
returns (earlier assignments persist across a later failure, since the
Go code mutates the struct in place). -/
def parseFormData (data : List (String × FormValue)) (tagName : String) :
    List (StructField × GoValue) → List GoValue × Option Outcome
  | [] => ([], none)
  | (f, old) :: rest =>
      match lookupData data (fieldKey f tagName) with
      | none =>
          if isRequired f tagName then
            (old :: rest.map Prod.snd, some (.err .requiredFieldMissing))
          else
            let r := parseFormData data tagName rest
            (old :: r.1, r.2)
      | some v =>
          match setField f.ftype old v with
          | .error .panicked => (old :: rest.map Prod.snd, some .panicked)
          | .error .failure => (old :: rest.map Prod.snd, some (.err .parseError))
          | .ok nv =>
              let r := parseFormData data tagName rest
              (nv :: r.1, r.2)

/-- The raw `url.Values` of a request: each key with its list of
values. -/
abbrev UrlValues := List (String × List String)

/-- The flat map built by `BodyParser` for url-encoded and multipart
bodies: keys with no values are skipped, a lone empty string is
skipped (empty is absent), a lone value is stored as a single string,
several values as a `[]string`. -/
def bodyDataMap (form : UrlValues) : List (String × FormValue) :=
  form.filterMap fun kv =>
    match kv.2 with
    | [] => none
    | [v] => if v = "" then none else some (kv.1, .single v)
    | vs => some (kv.1, .multi vs)

/-- The flat map built by `QueryParser`: a lone value (empty or not)
is stored as a single string, anything else (several values, or none)
as a `[]string`. -/
def queryDataMap (q : UrlValues) : List (String × FormValue) :=
  q.map fun kv =>
    match kv.2 with
    | [v] => (kv.1, .single v)
    | vs => (kv.1, .multi vs)

/-- The url-encoded / multipart branch of `BodyParser`: build the flat
map (skipping empty singles) and run `parseFormData` with the default
`"form"` tag preference. -/
def BodyParserUrlEncoded (form : UrlValues)
    (fields : List (StructField × GoValue)) : List GoValue × Option Outcome :=
  parseFormData (bodyDataMap form) "form" fields

/-- Model of `QueryParser`: build the flat map from `req.URL.Query()`
(no empty-string skipping) and run `parseFormData` with the default
`"query"` tag preference. -/
def QueryParser (q : UrlValues) (fields : List (StructField × GoValue)) :
    List GoValue × Option Outcome :=
  parseFormData (queryDataMap q) "query" fields

/-- A handler, observed through the ordered log of tags it appends
(the shared ordered log of spec property P7). -/
abbrev Handler := List String → List String

/-- `type Middleware func(next http.Handler) http.Handler`. -/
abbrev Mw := Handler → Handler

/-- Model of `Router.chain`: wrap the handler with the last middleware
first, then fold the remaining middlewares from index `len-2` down to
`0`, so `middlewares[0]` ends up outermost.  (The Go loop computes
exactly this right fold; the empty list returns the handler.) -/
def chain : List Mw → Handler → Handler
  | [], h => h
  | m :: ms, h => m (chain ms h)

/-- Model of the composition done by `registerRoute`: the route-level
middlewares are chained around the handler first, then the global
middlewares are chained outside that result. -/
def registeredHandler (globalMws routeMws : List Mw) (h : Handler) : Handler :=
  chain globalMws (chain routeMws h)

/-- A middleware layer that appends its tag to the log both before and
after invoking the next handler (the instrumentation of P7). -/
def logLayer (t : String) : Mw :=
  fun next log => next (log ++ [t]) ++ [t]

/-- A terminal handler that appends its tag once. -/
def terminalHandler (t : String) : Handler :=
  fun log => log ++ [t]

/-- Model of the pooled request context `CTX`: the locals map plus the
two back-references (`context`, `Router`), modelled as presence
flags. -/
structure CTX where
  locals : List (String × String)
  hasContext : Bool
  hasRouter : Bool
deriving DecidableEq, Repr

/-- The fresh context the pool's `New` builds: an empty locals map and
nil back-references. -/
def newCTX : CTX := ⟨[], false, false⟩

/-- `CTX.Set`: Go map assignment on the locals. -/
def ctxSet (c : CTX) (k v : String) : CTX :=
  { c with locals := (k, v) :: c.locals.filter (fun p => ¬ p.1 = k) }

/-- `CTX.Get`: Go map lookup on the locals (`nil` for an absent key is
modelled as `none`). -/
def ctxGet (c : CTX) (k : String) : Option String :=
  c.locals.lookup k

/-- The deferred release in `Router.ServeHTTP`: nil the back-references
and delete every entry of the locals map (`for k := range ctx.locals {
delete(ctx.locals, k) }` empties the map). -/
def releaseCTX (_ : CTX) : CTX :=
  { locals := [], hasContext := false, hasRouter := false }

/-- The context pool, modelled as the list of idle instances;
`sync.Pool.Get` takes one (or builds a fresh one) and `Put` returns
it. -/
abbrev CtxPool := List CTX

/-- `ctxPool.Get()`: the reused instance if one is idle, else `New`. -/
def poolGet (p : CtxPool) : CTX × CtxPool :=
  match p with
  | [] => (newCTX, [])
  | c :: rest => (c, rest)

/-- `ctxPool.Put(ctx)`. -/
def poolPut (p : CtxPool) (c : CTX) : CtxPool := c :: p

/-- What a request's handler chain does to the context: it may read and
write locals, and it either returns normally or panics. -/
structure RequestRun where
  run : CTX → CTX × Bool

/-- Model of the pooled-context part of `Router.ServeHTTP`: get a
context, attach the back-references, run the handler chain, and — in a
deferred step that executes on the normal and the panicking exit path
alike — release the context and put it back in the pool.  Returns the
pool after the request (a panic still propagates in Go, but the defer
has run by then). -/
def serveHTTP (p : CtxPool) (h : RequestRun) : CtxPool :=
  let (c0, rest) := poolGet p
  let c1 := { c0 with hasContext := true, hasRouter := true }
  let (c2, _panicked) := h.run c1
  poolPut rest (releaseCTX c2)

/-- Decode a one-field struct whose field is tagged `form:"v"` from a
body map binding key `"v"` to the single string `s` — the smallest
instantiation of `parseFormData` exercising `setField` on a present
single value. -/
def decodeOne (t : FType) (old : GoValue) (s : String) :
    List GoValue × Option Outcome :=
  parseFormData [("v", .single s)] "form" [(⟨"V", [("form", "v")], t⟩, old)]

/-- Claim C1, counterexample: decoding the base-10 value `"300"` into
an `int8`-typed field does NOT fail with a `ParseError` — the decode
succeeds and silently stores the truncated value `44` (`300 mod 2^8 =
44`), because `setField` parses at bit size 64 and `SetInt` truncates
without error. -/
theorem C1_width_truncation_counterexample :
    parseFormData [("age", .single "300")] "form"
      [(⟨"Age", [("form", "age")], .tInt 8⟩, .int 0)]
      = ([.int 44], none) := by decide

/-- Claim C1, amended: a present base-10 value produces a `ParseError`
exactly when the 64-bit parse (`strconv.ParseInt`/`ParseUint` at bit
size 64) fails — malformed syntax or outside the 64-bit range; a value
that fits 64 bits but not the field's narrower declared width is
silently stored truncated (two's-complement wrap for signed fields,
mod `2^w` for unsigned), with no error. -/
theorem C1_width_truncation_silent (w : Nat) (s : String) (old : GoValue) :
    (goParseInt64 s = none →
      decodeOne (.tInt w) old s = ([old], some (.err .parseError))) ∧
    (∀ n, goParseInt64 s = some n →
      decodeOne (.tInt w) old s = ([.int (truncInt w n)], none)) ∧
    (goParseUint64 s = none →
      decodeOne (.tUint w) old s = ([old], some (.err .parseError))) ∧
    (∀ n, goParseUint64 s = some n →
      decodeOne (.tUint w) old s = ([.uint (truncUint w n)], none)) := by
  have hk : ∀ t : FType, lookupData [("v", FormValue.single s)]
      (fieldKey ⟨"V", [("form", "v")], t⟩ "form") = some (.single s) :=
    fun _ => rfl
  refine ⟨fun h => ?_, fun n h => ?_, fun h => ?_, fun n h => ?_⟩ <;>
    simp [decodeOne, parseFormData, hk, setField, asString, h]

/-- Witness for C1: `"300"` into a width-8 signed field stores `44`
with no error; a 20-digit value into a width-8 signed field is a
`ParseError` (it fails the 64-bit parse). -/
theorem C1_width_truncation_silent_witness :
    decodeOne (.tInt 8) (.int 0) "300" = ([.int 44], none) ∧
    decodeOne (.tInt 8) (.int 0) "99999999999999999999"
      = ([.int 0], some (.err .parseError)) ∧
    decodeOne (.tUint 8) (.uint 0) "300" = ([.uint 44], none) := by
  refine ⟨?_, ?_, ?_⟩
  · exact ((C1_width_truncation_silent 8 "300" (.int 0)).2.1 300
      (by decide)).trans (by decide)
  · exact (C1_width_truncation_silent 8 "99999999999999999999"
      (.int 0)).1 (by decide)
  · exact ((C1_width_truncation_silent 8 "300" (.uint 0)).2.2.2 300
      (by decide)).trans (by decide)

/-- Claim C2, counterexample: with the `Name` field declared before the
required `Email` field, a body of `name=Jane` yields the
`RequiredFieldMissing` error but the destination is NOT left
unmodified — `Name` has already been assigned `"Jane"` when the error
is returned. -/
theorem C2_unmodified_destination_counterexample :
    BodyParserUrlEncoded [("name", ["Jane"])]
      [(⟨"Name", [("form", "name")], .tStr⟩, .str ""),
       (⟨"Email", [("form", "email,required")], .tStr⟩, .str "")]
      = ([.str "Jane", .str ""], some (.err .requiredFieldMissing)) ∧
    [GoValue.str "Jane", GoValue.str ""] ≠ [GoValue.str "", GoValue.str ""] := by
  decide

/-- Claim C2, amended: a body omitting the required `email` key yields
`RequiredFieldMissing`; the required field itself and every field
declared after it keep their values, while a field declared before it
whose key is present has already been written.  In particular the
destination is fully unmodified exactly when the required field is
declared first. -/
theorem C2_required_field_missing_amended (oldE oldN : GoValue) (v : String)
    (hv : ¬v = "") :
    BodyParserUrlEncoded [("name", [v])]
      [(⟨"Email", [("form", "email,required")], .tStr⟩, oldE),
       (⟨"Name", [("form", "name")], .tStr⟩, oldN)]
      = ([oldE, oldN], some (.err .requiredFieldMissing)) ∧
    BodyParserUrlEncoded [("name", [v])]
      [(⟨"Name", [("form", "name")], .tStr⟩, oldN),
       (⟨"Email", [("form", "email,required")], .tStr⟩, oldE)]
      = ([.str v, oldE], some (.err .requiredFieldMissing)) := by
  have hdata : bodyDataMap [("name", [v])] = [("name", .single v)] := by
    simp [bodyDataMap, hv]
  have hmiss : lookupData [("name", FormValue.single v)] "email" = none := rfl
  have hhit : lookupData [("name", FormValue.single v)] "name"
      = some (.single v) := rfl
  have hkE : fieldKey ⟨"Email", [("form", "email,required")], FType.tStr⟩ "form"
      = "email" := rfl
  have hkN : fieldKey ⟨"Name", [("form", "name")], FType.tStr⟩ "form"
      = "name" := rfl
  have hrE : isRequired ⟨"Email", [("form", "email,required")], FType.tStr⟩ "form"
      = true := rfl
  constructor <;>
    simp [BodyParserUrlEncoded, hdata, parseFormData, hmiss, hhit, hkE, hkN,
      hrE, setField, asString]

/-- Witness for C2: the concrete scenario of the spec, body `name=Jane`. -/
theorem C2_required_field_missing_amended_witness :
    BodyParserUrlEncoded [("name", ["Jane"])]
      [(⟨"Email", [("form", "email,required")], .tStr⟩, .str ""),
       (⟨"Name", [("form", "name")], .tStr⟩, .str "")]
      = ([.str "", .str ""], some (.err .requiredFieldMissing)) :=
  (C2_required_field_missing_amended (.str "") (.str "") "Jane" (by decide)).1

/-- Claim C3, counterexample: `QueryParser` does NOT treat a present
empty-string value as absent — decoding `?age=` into an optional `int`
field returns a `ParseError` instead of leaving the field untouched
with no error (only `BodyParser` skips empty single values). -/
theorem C3_empty_query_counterexample :
    QueryParser [("age", [""])]
      [(⟨"Age", [("query", "age")], .tInt 64⟩, .int 7)]
      = ([.int 7], some (.err .parseError)) := by decide

/-- Claim C3, amended: a present single-valued empty string on an
optional numeric or boolean field is treated as absent by `BodyParser`
(field left at its existing value, no error), but `QueryParser` passes
the empty string to coercion, which fails with `ParseError`. -/
theorem C3_empty_is_absent_amended (w : Nat) (old : GoValue) :
    BodyParserUrlEncoded [("age", [""])]
      [(⟨"Age", [("form", "age")], .tInt w⟩, old)] = ([old], none) ∧
    BodyParserUrlEncoded [("active", [""])]
      [(⟨"Active", [("form", "active")], .tBool⟩, old)] = ([old], none) ∧
    QueryParser [("age", [""])]
      [(⟨"Age", [("query", "age")], .tInt w⟩, old)]
      = ([old], some (.err .parseError)) ∧
    QueryParser [("active", [""])]
      [(⟨"Active", [("query", "active")], .tBool⟩, old)]
      = ([old], some (.err .parseError)) :=
  ⟨rfl, rfl, rfl, rfl⟩

/-- Claim C4: decoding fails fast on a missing required field — at
whatever position the first missing required field sits, the decode
returns `RequiredFieldMissing` and every field declared after it keeps
its prior value (its key is never looked up, its value never
assigned), while earlier fields keep whatever the loop had already
produced for them. -/
theorem C4_required_fail_fast (data : List (String × FormValue))
    (tagName : String) (pre : List (StructField × GoValue)) (f : StructField)
    (old : GoValue) (rest : List (StructField × GoValue))
    (hpre : (parseFormData data tagName pre).2 = none)
    (habs : lookupData data (fieldKey f tagName) = none)
    (hreq : isRequired f tagName = true) :
    parseFormData data tagName (pre ++ (f, old) :: rest)
      = ((parseFormData data tagName pre).1 ++ old :: rest.map Prod.snd,
         some (.err .requiredFieldMissing)) := by
  induction pre with
  | nil => simp [parseFormData, habs, hreq]
  | cons gv pre ih =>
      obtain ⟨g, v⟩ := gv
      rw [List.cons_append]
      simp only [parseFormData] at hpre ⊢
      cases hl : lookupData data (fieldKey g tagName) with
      | none =>
          simp only [hl] at hpre ⊢
          by_cases hr : isRequired g tagName = true
          · simp [hr] at hpre
          · have hpre2 : (parseFormData data tagName pre).2 = none := by
              simpa [hr] using hpre
            simp [hr, ih hpre2]
      | some fv =>
          simp only [hl] at hpre ⊢
          cases hsf : setField g.ftype v fv with
          | error e =>
              cases e <;> simp [hsf] at hpre
          | ok nv =>
              have hpre2 : (parseFormData data tagName pre).2 = none := by
                simpa [hsf] using hpre
              simp [hsf, ih hpre2]

/-- Witness for C4: the required `email` field sits between two fields
whose key `"b"` is present in the data; the field before it is
assigned, the field after it is not (it keeps `"z"`), and the decode
stops with `RequiredFieldMissing`. -/
theorem C4_required_fail_fast_witness :
    parseFormData [("b", .single "x")] "form"
      [(⟨"Title", [("form", "b")], .tStr⟩, .str ""),
       (⟨"Email", [("form", "email,required")], .tStr⟩, .str ""),
       (⟨"Later", [("form", "b")], .tStr⟩, .str "z")]
      = ([.str "x", .str "", .str "z"], some (.err .requiredFieldMissing)) := by
  have h := C4_required_fail_fast [("b", .single "x")] "form"
      [(⟨"Title", [("form", "b")], .tStr⟩, .str "")]
      ⟨"Email", [("form", "email,required")], .tStr⟩ (.str "")
      [(⟨"Later", [("form", "b")], .tStr⟩, .str "z")]
      (by decide) (by decide) (by decide)
  exact h.trans (by decide)

/-- Claim C5: `chain` wraps the route-specific list so the
first-declared middleware is outermost, and `registerRoute` wraps
global middleware outside that result.  With three logging layers A,
B, C registered in that order around a terminal handler, the observed
log is `A,B,C,handler,C,B,A`; a global layer G logs outside them all,
`G,A,B,C,handler,C,B,A,G`. -/
theorem C5_middleware_order (a b c g t : String) :
    registeredHandler [] [logLayer a, logLayer b, logLayer c]
      (terminalHandler t) [] = [a, b, c, t, c, b, a] ∧
    registeredHandler [logLayer g] [logLayer a, logLayer b, logLayer c]
      (terminalHandler t) [] = [g, a, b, c, t, c, b, a, g] := by
  constructor <;> simp [registeredHandler, chain, logLayer, terminalHandler]

/-- Claim C6: after `ServeHTTP` finishes a request — whether the
handler chain returned normally or panicked, since the release is a
deferred step — the context instance returned to the pool has an empty
locals store and nil back-references, so the next request drawing that
same instance observes every key as absent. -/
theorem C6_pool_isolation (p : CtxPool) (h : RequestRun) (k : String) :
    (poolGet (serveHTTP p h)).1.locals = [] ∧
    (poolGet (serveHTTP p h)).1.hasContext = false ∧
    (poolGet (serveHTTP p h)).1.hasRouter = false ∧
    ctxGet (poolGet (serveHTTP p h)).1 k = none :=
  ⟨rfl, rfl, rfl, rfl⟩

/-- Claim C7: the external key comes from the first non-empty source
among the caller-preferred tag, the `"json"` tag, and the snake-cased
field identifier, in that order — the later sources are never
consulted once an earlier one is non-empty — and the lookup key is the
first comma-separated, trimmed component of the winning tag. -/
theorem C7_key_resolution (f : StructField) (tagName : String) :
    (tagGet f tagName ≠ "" → resolveRawTag f tagName = tagGet f tagName) ∧
    (tagGet f tagName = "" → tagGet f "json" ≠ "" →
      resolveRawTag f tagName = tagGet f "json") ∧
    (tagGet f tagName = "" → tagGet f "json" = "" →
      resolveRawTag f tagName = SnakeCase f.name) ∧
    fieldKey f tagName
      = ((splitComma (resolveRawTag f tagName)).map goTrim).headD "" := by
  refine ⟨fun h => ?_, fun h hj => ?_, fun h hj => ?_, rfl⟩ <;>
    simp [resolveRawTag, h, *]

/-- Witness for C7: one field per resolution source — an explicit
`form` tag wins over a present `json` tag, the `json` tag wins when
`form` is absent, and the snake-cased identifier is the fallback. -/
theorem C7_key_resolution_witness :
    resolveRawTag ⟨"UserName", [("form", "uname"), ("json", "ujson")], .tStr⟩
      "form" = "uname" ∧
    resolveRawTag ⟨"UserName", [("json", "ujson")], .tStr⟩ "form" = "ujson" ∧
    resolveRawTag ⟨"UserName", [], .tStr⟩ "form" = "user_name" := by
  refine ⟨?_, ?_, ?_⟩
  · exact ((C7_key_resolution
      ⟨"UserName", [("form", "uname"), ("json", "ujson")], .tStr⟩ "form").1
      (by decide)).trans (by decide)
  · exact ((C7_key_resolution ⟨"UserName", [("json", "ujson")], .tStr⟩
      "form").2.1 (by decide) (by decide)).trans (by decide)
  · exact ((C7_key_resolution ⟨"UserName", [], .tStr⟩ "form").2.2.1
      (by decide) (by decide)).trans (by decide)

/-- Claim C8: a slice-typed integer field fed the single string
`"1, 2, 3"` decodes to `[1,2,3]` (comma split, per-segment trim,
independent coercion); fed the multi-valued source `["1","2","3"]` it
decodes to the same sequence; and an empty multi-valued source is a
no-op that keeps the existing slice value and is not an error. -/
theorem C8_slice_csv (old : GoValue) :
    parseFormData [("tags", .single "1, 2, 3")] "form"
      [(⟨"Tags", [("form", "tags")], .tSlice (.eInt 64)⟩, old)]
      = ([.sliceInt [1, 2, 3]], none) ∧
    parseFormData [("tags", .multi ["1", "2", "3"])] "form"
      [(⟨"Tags", [("form", "tags")], .tSlice (.eInt 64)⟩, old)]
      = ([.sliceInt [1, 2, 3]], none) ∧
    parseFormData [("tags", .multi [])] "form"
      [(⟨"Tags", [("form", "tags")], .tSlice (.eInt 64)⟩, old)]
      = ([old], none) :=
  ⟨rfl, rfl, rfl⟩

/-- Claim C9: for a boolean field with a present single value, every
canonical `strconv.ParseBool` token decodes to its boolean value, the
alias `"on"` decodes to true and `"off"` to false, and every other
token fails with a `ParseError`. -/
theorem C9_bool_coercion (s : String) (old : GoValue) :
    (s ∈ ["1", "t", "T", "true", "TRUE", "True"] →
      decodeOne .tBool old s = ([.bool true], none)) ∧
    (s ∈ ["0", "f", "F", "false", "FALSE", "False"] →
      decodeOne .tBool old s = ([.bool false], none)) ∧
    (s = "on" → decodeOne .tBool old s = ([.bool true], none)) ∧
    (s = "off" → decodeOne .tBool old s = ([.bool false], none)) ∧
    (s ∉ ["1", "t", "T", "true", "TRUE", "True", "0", "f", "F", "false", "FALSE",
        "False", "on", "off"] →
      decodeOne .tBool old s = ([old], some (.err .parseError))) := by
  have hk : lookupData [("v", FormValue.single s)]
      (fieldKey ⟨"V", [("form", "v")], FType.tBool⟩ "form")
      = some (.single s) := rfl
  refine ⟨fun h => ?_, fun h => ?_, fun h => ?_, fun h => ?_, fun h => ?_⟩
  · simp only [List.mem_cons, List.not_mem_nil, or_false] at h
    rcases h with h | h | h | h | h | h <;> subst h <;> rfl
  · simp only [List.mem_cons, List.not_mem_nil, or_false] at h
    rcases h with h | h | h | h | h | h <;> subst h <;> rfl
  · subst h; rfl
  · subst h; rfl
  · simp only [List.mem_cons, List.not_mem_nil, or_false, not_or] at h
    obtain ⟨h1, h2, h3, h4, h5, h6, h7, h8, h9, h10, h11, h12, h13, h14⟩ := h
    simp [decodeOne, parseFormData, hk, setField, asString, parseBoolToken,
      goParseBool, h1, h2, h3, h4, h5, h6, h7, h8, h9, h10, h11, h12, h13, h14]

/-- Witness for C9: `"on"` decodes to true, `"off"` to false, `"True"`
to true, and the non-token `"yes"` is a `ParseError`. -/
theorem C9_bool_coercion_witness :
    decodeOne .tBool (.bool false) "on" = ([.bool true], none) ∧
    decodeOne .tBool (.bool true) "off" = ([.bool false], none) ∧
    decodeOne .tBool (.bool false) "True" = ([.bool true], none) ∧
    decodeOne .tBool (.bool false) "yes"
      = ([.bool false], some (.err .parseError)) :=
  ⟨(C9_bool_coercion "on" (.bool false)).2.2.1 rfl,
   (C9_bool_coercion "off" (.bool true)).2.2.2.1 rfl,
   (C9_bool_coercion "True" (.bool false)).1 (by decide),
   (C9_bool_coercion "yes" (.bool false)).2.2.2.2 (by decide)⟩

/-- Claim C10: the fallback key derived from a field identifier puts an
underscore before every uppercase letter past the first character and
lowercases the result, so consecutive capitals each get their own
underscore: `UserID` resolves to `"user_i_d"` (not `"user_id"`) and
`ID` to `"i_d"`; for an untagged field this snake-cased form is the
lookup key `parseFormData` uses. -/
theorem C10_snake_case_consecutive_capitals :
    SnakeCase "UserID" = "user_i_d" ∧ SnakeCase "ID" = "i_d" ∧
    fieldKey ⟨"UserID", [], .tStr⟩ "form" = "user_i_d" ∧
    fieldKey ⟨"ID", [], .tStr⟩ "form" = "i_d" := by decide
